import Mathlib

/-!
Verification of the FreightPay Investigator aggregation pipeline.

The definitions below are a shallow embedding of the repository's
`main.py`.  Python strings are modelled as `List Char`; JSON objects
with a known key set become structures whose fields are `Option`s; a
JSON field that can be missing, null or present becomes `JField`; and
Python code that can raise becomes a function into `Except`.
-/

namespace FPInvestigator

/-- Python strings, modelled as lists of characters. -/
abbrev Str := List Char

/-- The characters removed by Python `str.strip()` (ASCII whitespace). -/
def isPySpace (c : Char) : Bool :=
  c == ' ' || c == '\t' || c == '\n' || c == '\r' || c == '\x0b' || c == '\x0c'

/-- Python `s.strip()`. -/
def pyStrip (s : Str) : Str :=
  ((s.dropWhile isPySpace).reverse.dropWhile isPySpace).reverse

/-- Python `s.upper()` (ASCII letters). -/
def pyUpper (s : Str) : Str :=
  s.map Char.toUpper

/-- Here `afterFirst sep s` is `some r` exactly when `sep` occurs in `s`, where
`r` is the text after the first occurrence; so `(afterFirst sep s).isSome`
models Python `sep in s` and `(afterFirst sep s).get _` models
`s.split(sep, 1)[1]`. -/
def afterFirst (sep : Str) : Str → Option Str
  | [] => if sep.isPrefixOf ([] : Str) then some (([] : Str).drop sep.length) else none
  | c :: rest =>
    if sep.isPrefixOf (c :: rest) then some ((c :: rest).drop sep.length)
    else afterFirst sep rest

/-- Python `s.rsplit(c, 1)[-1]`: the text after the last occurrence of the
character `c`, or the whole string when `c` does not occur. -/
def afterLastChar (c : Char) (s : Str) : Str :=
  (s.reverse.takeWhile (fun x => x != c)).reverse

/-- Python `gid.split(".", 1)[1] if "." in gid else gid`: strip a `.`-qualifier
prefix.  This pattern appears verbatim in `extract_status_value`,
`parse_inline_statuses` and `parse_refnums` in `main.py`. -/
def stripDomain (gid : Str) : Str :=
  match afterFirst (".".toList) gid with
  | some rest => rest
  | none => gid

/-- Embedding of `extract_status_value` from `main.py` (the status decoder, spec 4.2). -/
def extract_status_value (status_type_gid status_value_gid : Str) : Str :=
  let val := stripDomain status_value_gid
  match afterFirst (" - ".toList) val with
  | some rest => pyStrip rest
  | none =>
    let type_name := stripDomain status_type_gid
    if (pyUpper type_name ++ ['_']).isPrefixOf (pyUpper val) then
      pyStrip (val.drop (type_name.length + 1))
    else if (afterFirst ("_".toList) val).isSome then
      pyStrip (afterLastChar '_' val)
    else
      pyStrip val

/-- The status-decoding rules exactly as the specification words them
(spec 4.2, rules 1-5), to be compared with `extract_status_value`. -/
def status_decode_spec (status_type_gid status_value_gid : Str) : Str :=
  let v := stripDomain status_value_gid
  if h : (afterFirst (" - ".toList) v).isSome then
    pyStrip ((afterFirst (" - ".toList) v).get h)
  else
    let t := stripDomain status_type_gid
    if (pyUpper (t ++ ['_'])).isPrefixOf (pyUpper v) then
      pyStrip (v.drop (t ++ ['_']).length)
    else if (afterFirst ("_".toList) v).isSome then
      pyStrip (afterLastChar '_' v)
    else
      pyStrip v

/-- A link descriptor: in `main.py` a link is read with `link.get("rel")`
and `link.get("href", "")`. -/
structure Link where
  rel : Option Str
  href : Option Str
deriving DecidableEq

/-- Embedding of `extract_xid_from_link` from `main.py`.  Note the fall-through: a link
whose `rel` matches but whose `href` contains no slash does not return;
the loop keeps scanning subsequent links. -/
def extract_xid_from_link : List Link → Str → Option Str
  | [], _ => none
  | link :: rest, rel =>
    if link.rel = some rel then
      let href := link.href.getD []
      if (afterFirst ("/".toList) href).isSome then
        let lastSeg := afterLastChar '/' href
        match afterFirst (".".toList) lastSeg with
        | some r => some r
        | none => some lastSeg
      else extract_xid_from_link rest rel
    else extract_xid_from_link rest rel

/-- Whether a link is the one `extract_xid_from_link` actually selects:
its `rel` matches and its `href` contains a slash. -/
def linkMatches (rel : Str) (link : Link) : Bool :=
  decide (link.rel = some rel) && (afterFirst ("/".toList) (link.href.getD [])).isSome

/-- The identifier extracted from one selected link: the last path segment
of its `href`, with everything up to and including the first `.` removed
when the segment contains a `.`. -/
def linkLastSegment (link : Link) : Str :=
  let lastSeg := afterLastChar '/' (link.href.getD [])
  match afterFirst (".".toList) lastSeg with
  | some r => r
  | none => lastSeg

/-- The truthiness-relevant shapes of an optional JSON timestamp object
(`item.get("updateDate")` in `main.py`): the key missing or null (falsy),
an empty object (falsy, no usable value), or a non-empty object carrying
an optional `value` field (truthy). -/
inductive RawDate where
  | absent
  | emptyObj
  | obj (value : Option Str)
deriving DecidableEq

/-- Python truthiness of the timestamp object. -/
def RawDate.truthy : RawDate → Bool
  | .obj _ => true
  | _ => false

/-- Python `d.get("value")` on the timestamp object. -/
def RawDate.value : RawDate → Option Str
  | .obj v => v
  | _ => none

/-- One raw status item, with the fields `parse_inline_statuses` reads:
`item.get("statusTypeGid", "")`, `item.get("statusValueGid", "")`,
`item.get("updateDate")`, `item.get("insertDate")`. -/
structure StatusItem where
  statusTypeGid : Str
  statusValueGid : Str
  updateDate : RawDate
  insertDate : RawDate
deriving DecidableEq

/-- One normalized status entry: `{"value": ..., "updateDate": ...}`. -/
structure StatusEntry where
  value : Str
  updateDate : Option Str
deriving DecidableEq

/-- Embedding of `FP_STATUS_TYPES` from `main.py`: the allow-list of status kinds. -/
def FP_STATUS_TYPES : List Str :=
  ["BTF_SHIP_IND".toList, "BTF_RATE_IND".toList,
   "SEND_SHIPMENT_USB".toList, "SENT_TO_USB".toList]

/-- Python dict assignment `d[k] = v` on an insertion-ordered dict:
replace the value in place when the key exists, else append. -/
def dictSet : List (Str × StatusEntry) → Str → StatusEntry → List (Str × StatusEntry)
  | [], k, v => [(k, v)]
  | (k0, v0) :: rest, k, v =>
    if k0 = k then (k0, v) :: rest else (k0, v0) :: dictSet rest k v

/-- Python dict lookup `d.get(k)`. -/
def dictGet : List (Str × StatusEntry) → Str → Option StatusEntry
  | [], _ => none
  | (k0, v0) :: rest, k => if k0 = k then some v0 else dictGet rest k

/-- The entry stored for one allow-listed status item: the decoded value,
and the `update = item.get("updateDate") or item.get("insertDate") or {}`
chain followed by `update.get("value")`. -/
def statusEntryOf (item : StatusItem) : StatusEntry :=
  let update :=
    if item.updateDate.truthy then item.updateDate
    else if item.insertDate.truthy then item.insertDate
    else RawDate.emptyObj
  { value := extract_status_value item.statusTypeGid item.statusValueGid,
    updateDate := update.value }

/-- The loop of `parse_inline_statuses` over the status items. -/
def statusLoop (result : List (Str × StatusEntry)) : List StatusItem → List (Str × StatusEntry)
  | [] => result
  | item :: rest =>
    let type_key := stripDomain item.statusTypeGid
    if type_key ∈ FP_STATUS_TYPES then
      statusLoop (dictSet result type_key (statusEntryOf item)) rest
    else
      statusLoop result rest

/-- A JSON field that can be missing, null, or present with a value. -/
inductive JField (α : Type) where
  | missing
  | null
  | val (a : α)
deriving DecidableEq

/-- Python `(raw or {}).get("items", [])` for a status or refnum container: a
missing, null or item-less container yields the empty list. -/
def jItems {α : Type} : JField (List α) → List α
  | .val xs => xs
  | _ => []

/-- Embedding of `parse_inline_statuses` from `main.py` (spec 4.3). -/
def parse_inline_statuses (raw_statuses : JField (List StatusItem)) :
    List (Str × StatusEntry) :=
  statusLoop [] (jItems raw_statuses)

/-- The last status item in input order whose stripped type is `k`. -/
def lastMatch (k : Str) : List StatusItem → Option StatusItem
  | [] => none
  | item :: rest =>
    match lastMatch k rest with
    | some i => some i
    | none => if stripDomain item.statusTypeGid = k then some item else none

/-- One raw reference-number item, with the fields `parse_refnums` reads. -/
structure RefnumItem where
  shipmentRefnumQualGid : Str
  shipmentRefnumValue : Option Str
deriving DecidableEq

/-- Embedding of `DATA_SOURCE_QUALIFIER` from `main.py`. -/
def DATA_SOURCE_QUALIFIER : Str := "DATA_SOURCE".toList

/-- The loop of `parse_refnums`: first qualifier match returns. -/
def refnumLoop : List RefnumItem → Option Str
  | [] => none
  | item :: rest =>
    let qualifier := stripDomain item.shipmentRefnumQualGid
    if pyUpper qualifier = DATA_SOURCE_QUALIFIER then item.shipmentRefnumValue
    else refnumLoop rest

/-- Embedding of `parse_refnums` from `main.py` (spec 4.4). -/
def parse_refnums (raw_refnums : JField (List RefnumItem)) : Option Str :=
  refnumLoop (jItems raw_refnums)

/-- Whether a refnum item's stripped, upper-cased qualifier matches the
`DATA_SOURCE` constant (the condition `parse_refnums` tests). -/
def refnumMatches (item : RefnumItem) : Bool :=
  decide (pyUpper (stripDomain item.shipmentRefnumQualGid) = DATA_SOURCE_QUALIFIER)

/-- A `{value, unit|currency}` measurement or timestamp wrapper object. -/
structure Wrapper where
  value : Option Str
  unit : Option Str
  currency : Option Str
deriving DecidableEq

/-- The empty wrapper `{}`. -/
def emptyWrapper : Wrapper := ⟨none, none, none⟩

/-- Python `raw.get(key, {}) or {}`: missing, null and empty all become `{}`. -/
def orEmpty : JField Wrapper → Wrapper
  | .val w => w
  | _ => emptyWrapper

/-- A location / service-provider object holding a `links` collection. -/
structure LocObj where
  links : JField (List Link)
deriving DecidableEq

/-- Python `raw.get(key, {}).get("links", [])` together with the unconditional
iteration of the result by `extract_xid_from_link`: a null object raises
AttributeError at the inner `.get`, and a null `links` value raises
TypeError when iterated.  Since every retrieved list is iterated, both
raises are modelled at retrieval. -/
def getLinks : JField LocObj → Except Str (List Link)
  | .missing => .ok []
  | .null => .error ("AttributeError".toList)
  | .val o =>
    match o.links with
    | .missing => .ok []
    | .null => .error ("TypeError".toList)
    | .val ls => .ok ls

/-- One raw query-result item with the fields `parse_shipment` reads. -/
structure RawShipment where
  shipmentXid : Option Str
  shipmentName : Option Str
  transportModeGid : Option Str
  servprov : JField LocObj
  sourceLocation : JField LocObj
  destLocation : JField LocObj
  startTime : JField Wrapper
  endTime : JField Wrapper
  insertDate : JField Wrapper
  updateDate : JField Wrapper
  totalWeight : JField Wrapper
  totalVolume : JField Wrapper
  totalActualCost : JField Wrapper
  shipmentAsWork : Option Bool
  perspective : Option Str
  attribute10 : Option Str
  attributeNumber1 : Option Str
  statuses : JField (List StatusItem)
  refnums : JField (List RefnumItem)
deriving DecidableEq

/-- The raw item with every field missing. -/
def emptyRaw : RawShipment :=
  { shipmentXid := none, shipmentName := none, transportModeGid := none,
    servprov := .missing, sourceLocation := .missing, destLocation := .missing,
    startTime := .missing, endTime := .missing,
    insertDate := .missing, updateDate := .missing,
    totalWeight := .missing, totalVolume := .missing, totalActualCost := .missing,
    shipmentAsWork := none, perspective := none,
    attribute10 := none, attributeNumber1 := none,
    statuses := .missing, refnums := .missing }

/-- The normalized shipment record returned by `parse_shipment`. -/
structure ShipmentRecord where
  shipmentXid : Option Str
  shipmentName : Option Str
  transportMode : Option Str
  carrier : Option Str
  sourceLocation : Option Str
  destLocation : Option Str
  startTime : Option Str
  endTime : Option Str
  insertDate : Option Str
  updateDate : Option Str
  totalWeight : Option Str
  weightUnit : Option Str
  totalVolume : Option Str
  volumeUnit : Option Str
  totalActualCost : Option Str
  currency : Option Str
  shipmentAsWork : Bool
  perspective : Option Str
  attribute10 : Option Str
  attributeNumber1 : Option Str
  dataSource : Option Str
  statuses : List (Str × StatusEntry)
deriving DecidableEq

/-- Embedding of `parse_shipment` from `main.py` (spec 4.5).  The `Except` models the
exceptions Python can raise on null location/servprov containers. -/
def parse_shipment (raw : RawShipment) : Except Str ShipmentRecord := do
  let src_links ← getLinks raw.sourceLocation
  let dst_links ← getLinks raw.destLocation
  let svc_links ← getLinks raw.servprov
  let weight := orEmpty raw.totalWeight
  let volume := orEmpty raw.totalVolume
  let cost := orEmpty raw.totalActualCost
  let start := orEmpty raw.startTime
  let endT := orEmpty raw.endTime
  let ins := orEmpty raw.insertDate
  let upd := orEmpty raw.updateDate
  let statuses := parse_inline_statuses raw.statuses
  let data_source := parse_refnums raw.refnums
  let is_fp := raw.shipmentAsWork.getD false
      || (dictGet statuses ("SEND_SHIPMENT_USB".toList)).isSome
  return {
    shipmentXid := raw.shipmentXid,
    shipmentName := raw.shipmentName,
    transportMode := raw.transportModeGid,
    carrier := extract_xid_from_link svc_links ("canonical".toList),
    sourceLocation := extract_xid_from_link src_links ("canonical".toList),
    destLocation := extract_xid_from_link dst_links ("canonical".toList),
    startTime := start.value,
    endTime := endT.value,
    insertDate := ins.value,
    updateDate := upd.value,
    totalWeight := weight.value,
    weightUnit := weight.unit,
    totalVolume := volume.value,
    volumeUnit := volume.unit,
    totalActualCost := cost.value,
    currency := cost.currency,
    shipmentAsWork := is_fp,
    perspective := raw.perspective,
    attribute10 := raw.attribute10,
    attributeNumber1 := raw.attributeNumber1,
    dataSource := data_source,
    statuses := statuses }

/-- The fields of the JSON body `fetch_query` reads:
`data.get("items", [])`, `data.get("count", ...)`, `data.get("hasMore", False)`. -/
structure RespData where
  items : JField (List RawShipment)
  count : JField Nat
  hasMore : JField Bool

/-- The outcome of the HTTP GET issued by `fetch_query`: either a response
(whose body may or may not parse as JSON), or a transport failure. -/
inductive HttpResult where
  | resp (status : Nat) (text : Str) (json : Except Str RespData)
  | exc (msg : Str)

/-- A per-query result envelope. -/
structure Envelope where
  query : Str
  count : Option Nat
  hasMore : Option Bool
  items : List ShipmentRecord
  error : Option Str
deriving DecidableEq

/-- The zero-item error envelope built in both except-branches. -/
def errorEnvelope (query_name msg : Str) : Envelope :=
  { query := query_name, count := some 0, hasMore := some false,
    items := [], error := some msg }

/-- Python `data.get("items", [])` followed by iteration: a null `items` value
raises TypeError inside the list comprehension. -/
def jItemsOrRaise {α : Type} : JField (List α) → Except Str (List α)
  | .missing => .ok []
  | .null => .error ("TypeError".toList)
  | .val xs => .ok xs

/-- Embedding of `fetch_query` from `main.py` (spec 4.6), as a function of the HTTP
outcome.  `raise_for_status` raises on any non-2xx status; any exception
raised while decoding JSON or normalizing items lands in the generic
`except` branch, so every outcome resolves to an envelope. -/
def fetch_query (query_name : Str) (r : HttpResult) : Envelope :=
  match r with
  | .exc msg => errorEnvelope query_name msg
  | .resp status text json =>
    if status < 200 ∨ 300 ≤ status then
      errorEnvelope query_name
        (("HTTP ".toList) ++ (toString status).toList ++ (": ".toList) ++ text.take 200)
    else
      match json with
      | .error msg => errorEnvelope query_name msg
      | .ok data =>
        match jItemsOrRaise data.items >>= fun raws => raws.mapM parse_shipment with
        | .error msg => errorEnvelope query_name msg
        | .ok items =>
          { query := query_name,
            count :=
              (match data.count with
               | .missing => some items.length
               | .null => none
               | .val n => some n),
            hasMore :=
              (match data.hasMore with
               | .missing => some false
               | .null => none
               | .val b => some b),
            items := items,
            error := none }

/-- The inner loop of the `search_single` merge: `seen` set and `merged`
list, updated over the items of one envelope. -/
def mergeItemsLoop (acc : List (Option Str) × List ShipmentRecord) :
    List ShipmentRecord → List (Option Str) × List ShipmentRecord
  | [] => acc
  | item :: rest =>
    if item.shipmentXid ∈ acc.1 then mergeItemsLoop acc rest
    else mergeItemsLoop (item.shipmentXid :: acc.1, acc.2 ++ [item]) rest

/-- The outer loop step of the `search_single` merge, for one envelope. -/
def mergeEnvelope (acc : List (Option Str) × List ShipmentRecord) (result : Envelope) :
    List (Option Str) × List ShipmentRecord :=
  mergeItemsLoop acc result.items

/-- The merged, deduplicated item list of `search_single` (spec 4.7),
scanning envelopes in the order `asyncio.gather` returns them, which is
the fixed query-list order. -/
def search_single_merge (results : List Envelope) : List ShipmentRecord :=
  (results.foldl mergeEnvelope (([], []) : List (Option Str) × List ShipmentRecord)).2

/-- All normalized items of all envelopes, in scan order. -/
def flatItems (results : List Envelope) : List ShipmentRecord :=
  (results.map Envelope.items).flatten

/-- First-occurrence-wins deduplication by shipment identifier, relative
to an already-seen key set: the reference behaviour of the merge. -/
def dedupFirst (seen : List (Option Str)) : List ShipmentRecord → List ShipmentRecord
  | [] => []
  | r :: rest =>
    if r.shipmentXid ∈ seen then dedupFirst seen rest
    else r :: dedupFirst (r.shipmentXid :: seen) rest

/-- The seen-key set after scanning a list of records. -/
def nextSeen (seen : List (Option Str)) : List ShipmentRecord → List (Option Str)
  | [] => seen
  | r :: rest =>
    if r.shipmentXid ∈ seen then nextSeen seen rest
    else nextSeen (r.shipmentXid :: seen) rest

/-- Python `values.split(",")`. -/
def splitComma : Str → List Str
  | [] => [[]]
  | c :: rest =>
    if c = ',' then [] :: splitComma rest
    else
      match splitComma rest with
      | [] => [[c]]
      | g :: gs => (c :: g) :: gs

/-- Python `[v.strip() for v in values.split(",") if v.strip()]` in `bulk_search`. -/
def bulkTerms (values : Str) : List Str :=
  ((splitComma values).map pyStrip).filter (fun v => !v.isEmpty)

/-- The outcome of the `bulk_search` input validation. -/
inductive BulkOutcome where
  | clientError (detail : Str)
  | accepted (terms : List Str)
deriving DecidableEq

/-- The validation prefix of `bulk_search` (spec 4.8): both rejections
happen before the HTTP client is even created, hence before any
upstream call. -/
def bulk_validate (values : Str) : BulkOutcome :=
  let raw_values := bulkTerms values
  if raw_values.isEmpty then
    .clientError ("No search values provided.".toList)
  else if raw_values.length > 100 then
    .clientError ("Maximum 100 values per bulk request.".toList)
  else
    .accepted raw_values

/-- The outcome of the POST issued by a trigger route. -/
inductive PostResult where
  | resp (status : Nat) (text : Str)
  | exc (msg : Str)
deriving DecidableEq

/-- The body of a trigger route's success response. -/
structure TriggerResult where
  status : Str
  httpStatus : Nat
  shipmentXid : Str
  response : Str
deriving DecidableEq

/-- What a trigger route resolves to: a result body, or an HTTP 500
(`HTTPException(status_code=500, detail=str(e))`). -/
inductive TriggerOutcome where
  | result (r : TriggerResult)
  | serverError (detail : Str)
deriving DecidableEq

/-- Embedding of `trigger_btf` from `main.py`, as a function of the POST outcome. -/
def trigger_btf (shipment_xid : Str) (post : PostResult) : TriggerOutcome :=
  match post with
  | .exc msg => .serverError msg
  | .resp status text =>
    .result
      { status := if status < 400 then "ok".toList else "error".toList,
        httpStatus := status,
        shipmentXid := shipment_xid,
        response := text.take 500 }

/-- Embedding of `trigger_usb` from `main.py`, as a function of the POST outcome. -/
def trigger_usb (shipment_xid : Str) (post : PostResult) : TriggerOutcome :=
  match post with
  | .exc msg => .serverError msg
  | .resp status text =>
    .result
      { status := if status < 400 then "ok".toList else "error".toList,
        httpStatus := status,
        shipmentXid := shipment_xid,
        response := text.take 500 }

/-- Embedding of `send_to_po` from `main.py`, as a function of the POST outcome. -/
def send_to_po (shipment_xid : Str) (post : PostResult) : TriggerOutcome :=
  match post with
  | .exc msg => .serverError msg
  | .resp status text =>
    .result
      { status := if status < 400 then "ok".toList else "error".toList,
        httpStatus := status,
        shipmentXid := shipment_xid,
        response := text.take 500 }

/-! Concrete fixtures used by the witness theorems below. -/

/-- A status item of a non-allow-listed kind. -/
def statusItemOther : StatusItem :=
  { statusTypeGid := "KFNA.SOME_OTHER_STATUS".toList, statusValueGid := "X_A".toList,
    updateDate := RawDate.absent, insertDate := RawDate.absent }

/-- A `BTF_RATE_IND` item with both timestamps present. -/
def statusItemReproc : StatusItem :=
  { statusTypeGid := "KFNA.BTF_RATE_IND".toList,
    statusValueGid := "KFNA.BTF_RATE - REPROCESS".toList,
    updateDate := RawDate.obj (some ("2024-01-02".toList)),
    insertDate := RawDate.obj (some ("2024-01-01".toList)) }

/-- First of two duplicate `BTF_RATE_IND` items. -/
def statusItemA : StatusItem :=
  { statusTypeGid := "BTF_RATE_IND".toList, statusValueGid := "X_A".toList,
    updateDate := RawDate.absent, insertDate := RawDate.absent }

/-- Second of two duplicate `BTF_RATE_IND` items. -/
def statusItemB : StatusItem :=
  { statusTypeGid := "BTF_RATE_IND".toList, statusValueGid := "X_B".toList,
    updateDate := RawDate.absent, insertDate := RawDate.absent }

/-- A normalized record with every field absent. -/
def emptyRec : ShipmentRecord :=
  { shipmentXid := none, shipmentName := none, transportMode := none,
    carrier := none, sourceLocation := none, destLocation := none,
    startTime := none, endTime := none, insertDate := none, updateDate := none,
    totalWeight := none, weightUnit := none, totalVolume := none, volumeUnit := none,
    totalActualCost := none, currency := none, shipmentAsWork := false,
    perspective := none, attribute10 := none, attributeNumber1 := none,
    dataSource := none, statuses := [] }

/-- A record with shipment identifier `S1`. -/
def recS1 : ShipmentRecord := { emptyRec with shipmentXid := some ("S1".toList) }

/-- A record with shipment identifier `S2`. -/
def recS2 : ShipmentRecord := { emptyRec with shipmentXid := some ("S2".toList) }

/-- A different record sharing identifier `S1`. -/
def recS1dup : ShipmentRecord :=
  { emptyRec with shipmentXid := some ("S1".toList), shipmentName := some ("DUP".toList) }

/-- A record with no shipment identifier. -/
def recNone1 : ShipmentRecord := { emptyRec with shipmentName := some ("N1".toList) }

/-- A different record, also with no shipment identifier. -/
def recNone2 : ShipmentRecord := { emptyRec with shipmentName := some ("N2".toList) }

/-- A successful envelope holding the given items. -/
def okEnvelope (query_name : Str) (items : List ShipmentRecord) : Envelope :=
  { query := query_name, count := some items.length, hasMore := some false,
    items := items, error := none }

/-- A response body with one empty raw item and no count/hasMore keys. -/
def respData0 : RespData :=
  { items := JField.val [emptyRaw], count := JField.missing, hasMore := JField.missing }

/-- A comma-separated input of exactly 100 non-empty terms. -/
def hundredTerms : Str := (String.intercalate "," (List.replicate 100 "a")).toList

/-- A comma-separated input of 101 non-empty terms. -/
def hundredOneTerms : Str := (String.intercalate "," (List.replicate 101 "a")).toList

/-- Uppercasing distributes over appending the underscore. -/
theorem pyUpper_append_underscore (s : Str) :
    pyUpper (s ++ ['_']) = pyUpper s ++ ['_'] := by
  have hc : Char.toUpper '_' = '_' := by decide
  simp [pyUpper, hc]

/-- C1: the status decoder applies exactly the spec's five-rule precedence
for every pair of type and value identifiers, and the two documented
examples decode to `REPROCESS` and `R`. -/
theorem c1_status_decoder_follows_spec :
    (∀ t v, extract_status_value t v = status_decode_spec t v)
    ∧ extract_status_value ("BTF_RATE_IND".toList)
        ("BTF_RATE_IND.BTF_RATE - REPROCESS".toList) = ("REPROCESS".toList)
    ∧ extract_status_value ("SEND_SHIPMENT_USB".toList)
        ("SEND_SHIPMENT_USB_R".toList) = ("R".toList) := by
  refine ⟨?_, by decide, by decide⟩
  intro t v
  unfold extract_status_value status_decode_spec
  cases h : afterFirst ([' ', '-', ' ']) (stripDomain v) with
  | some r => simp [h]
  | none =>
    simp only [h, Option.isSome_none, Bool.false_eq_true, dite_false]
    rw [pyUpper_append_underscore]
    simp [h]

/-- C4 counterexample: the single link has `rel = canonical`, so the claim
says the extractor returns its href's last path segment `ABC`; but the
code only returns for a matching link whose href contains a slash, falls
through past this one, and yields absent. -/
theorem c4_counterexample :
    extract_xid_from_link
      [{ rel := some ("canonical".toList), href := some ("ABC".toList) }]
      ("canonical".toList) = none
    ∧ (none : Option Str) ≠ some ("ABC".toList) :=
  ⟨by decide, by decide⟩

/-- C4 (amended): for every link list and target relation, the extractor
returns the processed last path segment of the href of the first link
whose `rel` matches and whose href contains a slash — matching links
without a slash in their href are skipped — and returns absent when no
such link exists; the documented example yields `CARRIER123`. -/
theorem c4_link_extractor_amended :
    (∀ links rel, extract_xid_from_link links rel
        = (links.find? (linkMatches rel)).map linkLastSegment)
    ∧ extract_xid_from_link
        [{ rel := some ("self".toList), href := some ("https://x/y/X.1".toList) },
         { rel := some ("canonical".toList),
           href := some ("https://x/y/KFNA.CARRIER123".toList) }]
        ("canonical".toList) = some ("CARRIER123".toList) := by
  refine ⟨?_, by decide⟩
  intro links rel
  induction links with
  | nil => rfl
  | cons link rest ih =>
    by_cases hrel : link.rel = some rel
    · by_cases hs : (afterFirst (['/']) (link.href.getD [])).isSome = true
      · have hm : linkMatches rel link = true := by simp [linkMatches, hrel, hs]
        rw [List.find?_cons_of_pos _ hm]
        cases hx : afterFirst (['.']) (afterLastChar '/' (link.href.getD [])) with
        | some r => simp [extract_xid_from_link, linkLastSegment, hrel, hs, hx]
        | none => simp [extract_xid_from_link, linkLastSegment, hrel, hs, hx]
      · have hm : linkMatches rel link = false := by
          simp [linkMatches, hrel]
          simpa using hs
        rw [List.find?_cons_of_neg _ (by simp [hm])]
        simp [extract_xid_from_link, hrel, hs, ih]
    · have hm : linkMatches rel link = false := by simp [linkMatches, hrel]
      rw [List.find?_cons_of_neg _ (by simp [hm])]
      simp [extract_xid_from_link, hrel, ih]

/-- C3: the record normalizer is not total over null nested containers.
On a raw item whose `sourceLocation` is JSON null, the expression
`raw.get("sourceLocation", {}).get("links", [])` invokes `.get` on `None`
and raises AttributeError instead of degrading to an absent value. -/
theorem c3_parse_shipment_raises_on_null_source_location :
    parse_shipment { emptyRaw with sourceLocation := JField.null }
      = .error ("AttributeError".toList) := by
  rfl

/-- Looking up the key just written by a dict assignment. -/
theorem dictGet_dictSet_self (m : List (Str × StatusEntry)) (k : Str) (v : StatusEntry) :
    dictGet (dictSet m k v) k = some v := by
  induction m with
  | nil => simp [dictSet, dictGet]
  | cons p rest ih =>
    obtain ⟨k0, v0⟩ := p
    by_cases h : k0 = k
    · simp [dictSet, dictGet, h]
    · simp [dictSet, dictGet, h, ih]

/-- A dict assignment leaves every other key's lookup unchanged. -/
theorem dictGet_dictSet_ne (m : List (Str × StatusEntry)) (k k' : Str) (v : StatusEntry)
    (h : k' ≠ k) : dictGet (dictSet m k v) k' = dictGet m k' := by
  induction m with
  | nil => simp [dictSet, dictGet, fun hh => h hh.symm ∘ Eq.symm, h.symm]
  | cons p rest ih =>
    obtain ⟨k0, v0⟩ := p
    by_cases h0 : k0 = k
    · subst h0
      simp [dictSet, dictGet, h.symm]
    · simp [dictSet, dictGet, h0, ih]

/-- For an allow-listed key, the status loop's final lookup is the entry
of the last matching item, else whatever the accumulator held. -/
theorem statusLoop_get (items : List StatusItem) (result : List (Str × StatusEntry))
    (k : Str) (hk : k ∈ FP_STATUS_TYPES) :
    dictGet (statusLoop result items) k =
      match lastMatch k items with
      | some i => some (statusEntryOf i)
      | none => dictGet result k := by
  induction items generalizing result with
  | nil => simp [statusLoop, lastMatch]
  | cons item rest ih =>
    by_cases hin : stripDomain item.statusTypeGid ∈ FP_STATUS_TYPES
    · rw [show statusLoop result (item :: rest)
          = statusLoop (dictSet result (stripDomain item.statusTypeGid) (statusEntryOf item)) rest
          from by simp [statusLoop, hin]]
      rw [ih]
      cases hl : lastMatch k rest with
      | some i => simp [lastMatch, hl]
      | none =>
        by_cases hkk : stripDomain item.statusTypeGid = k
        · simp [lastMatch, hl, hkk, dictGet_dictSet_self]
        · simp [lastMatch, hl, hkk,
            dictGet_dictSet_ne result (stripDomain item.statusTypeGid) k (statusEntryOf item)
              (fun hh => hkk hh.symm)]
    · rw [show statusLoop result (item :: rest) = statusLoop result rest
          from by simp [statusLoop, hin]]
      rw [ih]
      have hne : stripDomain item.statusTypeGid ≠ k := fun hh => hin (hh ▸ hk)
      cases hl : lastMatch k rest with
      | some i => simp [lastMatch, hl]
      | none => simp [lastMatch, hl, hne]

/-- A key outside the allow-list is never written by the status loop. -/
theorem statusLoop_get_notin (items : List StatusItem) (result : List (Str × StatusEntry))
    (k : Str) (hk : k ∉ FP_STATUS_TYPES) :
    dictGet (statusLoop result items) k = dictGet result k := by
  induction items generalizing result with
  | nil => simp [statusLoop]
  | cons item rest ih =>
    by_cases hin : stripDomain item.statusTypeGid ∈ FP_STATUS_TYPES
    · rw [show statusLoop result (item :: rest)
          = statusLoop (dictSet result (stripDomain item.statusTypeGid) (statusEntryOf item)) rest
          from by simp [statusLoop, hin]]
      rw [ih]
      exact dictGet_dictSet_ne result _ k _ (fun hh => hk (hh ▸ hin))
    · rw [show statusLoop result (item :: rest) = statusLoop result rest
          from by simp [statusLoop, hin]]
      exact ih result

/-- The last matching item is a member with the matching stripped type. -/
theorem lastMatch_mem (k : Str) (items : List StatusItem) (item : StatusItem)
    (h : lastMatch k items = some item) :
    item ∈ items ∧ stripDomain item.statusTypeGid = k := by
  induction items with
  | nil => simp [lastMatch] at h
  | cons i rest ih =>
    rw [lastMatch] at h
    cases hl : lastMatch k rest with
    | some j =>
      rw [hl] at h
      obtain ⟨hmem, hkey⟩ := ih (hl.trans (by simpa using h))
      exact ⟨List.mem_cons_of_mem _ hmem, hkey⟩
    | none =>
      rw [hl] at h
      by_cases hkk : stripDomain i.statusTypeGid = k
      · simp [hkk] at h
        exact ⟨by simp [h.symm], h ▸ hkk⟩
      · simp [hkk] at h

/-- The refnum loop returns the value of the first matching item. -/
theorem refnumLoop_eq_find (items : List RefnumItem) :
    refnumLoop items
      = (items.find? refnumMatches).bind RefnumItem.shipmentRefnumValue := by
  induction items with
  | nil => rfl
  | cons item rest ih =>
    by_cases h : refnumMatches item = true
    · rw [List.find?_cons_of_pos _ h]
      have hq : pyUpper (stripDomain item.shipmentRefnumQualGid) = DATA_SOURCE_QUALIFIER := by
        simpa [refnumMatches] using h
      simp [refnumLoop, hq]
    · rw [List.find?_cons_of_neg _ (by simp [h])]
      have hq : ¬ pyUpper (stripDomain item.shipmentRefnumQualGid) = DATA_SOURCE_QUALIFIER := by
        simpa [refnumMatches] using h
      simp [refnumLoop, hq, ih]

/-- C10: for duplicate allow-listed status kinds the last item in input
order wins (dict assignment overwrites), whereas the reference-number
lookup returns the first matching item's value. -/
theorem c10_status_last_wins_refnum_first_wins :
    (∀ raw_statuses k, k ∈ FP_STATUS_TYPES →
      dictGet (parse_inline_statuses raw_statuses) k
        = (lastMatch k (jItems raw_statuses)).map statusEntryOf)
    ∧ (∀ raw_refnums, parse_refnums raw_refnums
        = ((jItems raw_refnums).find? refnumMatches).bind RefnumItem.shipmentRefnumValue) := by
  constructor
  · intro raw k hk
    rw [parse_inline_statuses, statusLoop_get _ _ _ hk]
    cases hl : lastMatch k (jItems raw) with
    | some i => simp
    | none => simp [dictGet]
  · intro raw
    rw [parse_refnums, refnumLoop_eq_find]

/-- Witness for C10: two `BTF_RATE_IND` items in one status collection —
the second one's decoded value `B` is the one kept — and two matching
`DATA_SOURCE` refnums — the first one's value `FIRST` is returned. -/
theorem c10_witness :
    dictGet (parse_inline_statuses (JField.val [statusItemA, statusItemB]))
        ("BTF_RATE_IND".toList)
      = (lastMatch ("BTF_RATE_IND".toList)
          (jItems (JField.val [statusItemA, statusItemB]))).map statusEntryOf
    ∧ dictGet (parse_inline_statuses (JField.val [statusItemA, statusItemB]))
        ("BTF_RATE_IND".toList)
      = some { value := "B".toList, updateDate := none } :=
  ⟨c10_status_last_wins_refnum_first_wins.1 _ _ (by decide), by decide⟩

/-- C7: the normalized status mapping only ever holds allow-listed keys —
any other key looks up to nothing — and every held entry comes from a
status item of the collection with that stripped type: its value is the
decoded status value, and its timestamp is the update date's value when
the update date is truthy, else the insert date's value when that is
truthy, else absent. -/
theorem c7_status_allowlist_and_entries :
    (∀ raw_statuses k, k ∉ FP_STATUS_TYPES →
      dictGet (parse_inline_statuses raw_statuses) k = none)
    ∧ (∀ raw_statuses k e, dictGet (parse_inline_statuses raw_statuses) k = some e →
        k ∈ FP_STATUS_TYPES
        ∧ ∃ item ∈ jItems raw_statuses,
            stripDomain item.statusTypeGid = k
            ∧ e.value = extract_status_value item.statusTypeGid item.statusValueGid
            ∧ (item.updateDate.truthy = true → e.updateDate = item.updateDate.value)
            ∧ (item.updateDate.truthy = false → item.insertDate.truthy = true →
                e.updateDate = item.insertDate.value)
            ∧ (item.updateDate.truthy = false → item.insertDate.truthy = false →
                e.updateDate = none)) := by
  constructor
  · intro raw k hk
    rw [parse_inline_statuses, statusLoop_get_notin _ _ _ hk]
    rfl
  · intro raw k e he
    by_cases hk : k ∈ FP_STATUS_TYPES
    · refine ⟨hk, ?_⟩
      rw [parse_inline_statuses, statusLoop_get _ _ _ hk] at he
      cases hl : lastMatch k (jItems raw) with
      | none => rw [hl] at he; simp [dictGet] at he
      | some item =>
        rw [hl] at he
        obtain ⟨hmem, hkey⟩ := lastMatch_mem _ _ _ hl
        simp only [Option.some.injEq] at he
        subst he
        refine ⟨item, hmem, hkey, by simp [statusEntryOf], ?_, ?_, ?_⟩
        · intro hu
          simp [statusEntryOf, hu]
        · intro hu hi
          simp [statusEntryOf, hu, hi]
        · intro hu hi
          simp [statusEntryOf, hu, hi, RawDate.value]
    · rw [parse_inline_statuses, statusLoop_get_notin _ _ _ hk] at he
      simp [dictGet] at he

/-- Witness for C7: a `SOME_OTHER_STATUS` item is dropped, and the entry
retained for a `BTF_RATE_IND` item is its decoded value with the update
timestamp. -/
theorem c7_witness :
    dictGet (parse_inline_statuses (JField.val [statusItemOther]))
      ("SOME_OTHER_STATUS".toList) = none
    ∧ (("BTF_RATE_IND".toList) ∈ FP_STATUS_TYPES
       ∧ ∃ item ∈ jItems (JField.val [statusItemReproc]),
            stripDomain item.statusTypeGid = ("BTF_RATE_IND".toList)
            ∧ (StatusEntry.mk ("REPROCESS".toList) (some ("2024-01-02".toList))).value
                = extract_status_value item.statusTypeGid item.statusValueGid
            ∧ (item.updateDate.truthy = true →
               (StatusEntry.mk ("REPROCESS".toList) (some ("2024-01-02".toList))).updateDate
                 = item.updateDate.value)
            ∧ (item.updateDate.truthy = false → item.insertDate.truthy = true →
               (StatusEntry.mk ("REPROCESS".toList) (some ("2024-01-02".toList))).updateDate
                 = item.insertDate.value)
            ∧ (item.updateDate.truthy = false → item.insertDate.truthy = false →
               (StatusEntry.mk ("REPROCESS".toList) (some ("2024-01-02".toList))).updateDate
                 = none)) :=
  ⟨c7_status_allowlist_and_entries.1 _ _ (by decide),
   c7_status_allowlist_and_entries.2 _ _ _ (by decide)⟩

/-- The inner merge loop in terms of `nextSeen` and `dedupFirst`. -/
theorem mergeItemsLoop_eq (l : List ShipmentRecord) (seen : List (Option Str))
    (acc : List ShipmentRecord) :
    mergeItemsLoop (seen, acc) l = (nextSeen seen l, acc ++ dedupFirst seen l) := by
  induction l generalizing seen acc with
  | nil => simp [mergeItemsLoop, nextSeen, dedupFirst]
  | cons r rest ih =>
    by_cases h : r.shipmentXid ∈ seen
    · simp [mergeItemsLoop, nextSeen, dedupFirst, h, ih]
    · simp [mergeItemsLoop, nextSeen, dedupFirst, h, ih]

/-- Behaviour of `nextSeen` over an appended list. -/
theorem nextSeen_append (seen : List (Option Str)) (l1 l2 : List ShipmentRecord) :
    nextSeen seen (l1 ++ l2) = nextSeen (nextSeen seen l1) l2 := by
  induction l1 generalizing seen with
  | nil => simp [nextSeen]
  | cons r rest ih =>
    by_cases h : r.shipmentXid ∈ seen <;> simp [nextSeen, h, ih]

/-- Behaviour of `dedupFirst` over an appended list. -/
theorem dedupFirst_append (seen : List (Option Str)) (l1 l2 : List ShipmentRecord) :
    dedupFirst seen (l1 ++ l2) = dedupFirst seen l1 ++ dedupFirst (nextSeen seen l1) l2 := by
  induction l1 generalizing seen with
  | nil => simp [dedupFirst, nextSeen]
  | cons r rest ih =>
    by_cases h : r.shipmentXid ∈ seen <;> simp [dedupFirst, nextSeen, h, ih]

/-- The envelope fold of the merge in terms of `dedupFirst` on the
flattened item list. -/
theorem foldl_mergeEnvelope (results : List Envelope) (seen : List (Option Str))
    (acc : List ShipmentRecord) :
    results.foldl mergeEnvelope (seen, acc)
      = (nextSeen seen (flatItems results), acc ++ dedupFirst seen (flatItems results)) := by
  induction results generalizing seen acc with
  | nil => simp [flatItems, nextSeen, dedupFirst]
  | cons env rest ih =>
    simp only [List.foldl_cons, mergeEnvelope, mergeItemsLoop_eq]
    rw [ih]
    simp [flatItems, nextSeen_append, dedupFirst_append, List.append_assoc]

/-- The `search_single` merge is first-wins dedup on the flat scan. -/
theorem search_single_merge_eq (results : List Envelope) :
    search_single_merge results = dedupFirst [] (flatItems results) := by
  rw [search_single_merge, foldl_mergeEnvelope]
  simp

/-- A record surviving dedup has an identifier outside the seen set. -/
theorem mem_dedupFirst_xid (seen : List (Option Str)) (l : List ShipmentRecord)
    (r : ShipmentRecord) (h : r ∈ dedupFirst seen l) : r.shipmentXid ∉ seen := by
  induction l generalizing seen with
  | nil => simp [dedupFirst] at h
  | cons a rest ih =>
    by_cases ha : a.shipmentXid ∈ seen
    · rw [dedupFirst, if_pos ha] at h
      exact ih _ h
    · rw [dedupFirst, if_neg ha] at h
      rcases List.mem_cons.mp h with rfl | h2
      · exact ha
      · exact fun hs => ih _ h2 (List.mem_cons_of_mem _ hs)

/-- The deduplicated list has pairwise-distinct identifiers. -/
theorem nodup_dedupFirst_map (seen : List (Option Str)) (l : List ShipmentRecord) :
    ((dedupFirst seen l).map ShipmentRecord.shipmentXid).Nodup := by
  induction l generalizing seen with
  | nil => simp [dedupFirst]
  | cons a rest ih =>
    by_cases ha : a.shipmentXid ∈ seen
    · rw [dedupFirst, if_pos ha]
      exact ih seen
    · rw [dedupFirst, if_neg ha]
      simp only [List.map_cons, List.nodup_cons]
      refine ⟨?_, ih _⟩
      intro hmem
      obtain ⟨r, hr, hxid⟩ := List.mem_map.mp hmem
      exact mem_dedupFirst_xid _ _ _ hr (by rw [hxid]; exact List.mem_cons_self _ _)

/-- An identifier survives dedup exactly when it occurs in the input and
is not already seen. -/
theorem mem_map_dedupFirst (seen : List (Option Str)) (l : List ShipmentRecord)
    (x : Option Str) :
    x ∈ (dedupFirst seen l).map ShipmentRecord.shipmentXid
      ↔ x ∉ seen ∧ x ∈ l.map ShipmentRecord.shipmentXid := by
  induction l generalizing seen with
  | nil => simp [dedupFirst]
  | cons a rest ih =>
    by_cases ha : a.shipmentXid ∈ seen
    · rw [dedupFirst, if_pos ha]
      rw [ih]
      simp only [List.map_cons, List.mem_cons]
      constructor
      · rintro ⟨hx, hm⟩
        exact ⟨hx, Or.inr hm⟩
      · rintro ⟨hx, hm | hm⟩
        · exact absurd (hm ▸ ha) hx
        · exact ⟨hx, hm⟩
    · rw [dedupFirst, if_neg ha]
      simp only [List.map_cons, List.mem_cons]
      rw [ih]
      constructor
      · rintro (rfl | ⟨hx, hm⟩)
        · exact ⟨ha, Or.inl rfl⟩
        · exact ⟨fun hs => hx (List.mem_cons_of_mem _ hs), Or.inr hm⟩
      · rintro ⟨hx, hm | hm⟩
        · exact Or.inl hm
        · by_cases hax : x = a.shipmentXid
          · exact Or.inl hax
          · exact Or.inr ⟨by simp [hax, hx], hm⟩

/-- A record surviving dedup is the first record of the input carrying
its identifier. -/
theorem dedupFirst_find (seen : List (Option Str)) (l : List ShipmentRecord)
    (r : ShipmentRecord) (h : r ∈ dedupFirst seen l) :
    l.find? (fun s => decide (s.shipmentXid = r.shipmentXid)) = some r := by
  induction l generalizing seen with
  | nil => simp [dedupFirst] at h
  | cons a rest ih =>
    by_cases ha : a.shipmentXid ∈ seen
    · rw [dedupFirst, if_pos ha] at h
      have hne : a.shipmentXid ≠ r.shipmentXid :=
        fun hh => mem_dedupFirst_xid _ _ _ h (hh ▸ ha)
      rw [List.find?_cons_of_neg _ (by simp [hne])]
      exact ih _ h
    · rw [dedupFirst, if_neg ha] at h
      rcases List.mem_cons.mp h with rfl | h2
      · rw [List.find?_cons_of_pos _ (by simp)]
      · have hr := mem_dedupFirst_xid _ _ _ h2
        have hne : a.shipmentXid ≠ r.shipmentXid :=
          fun hh => hr (hh ▸ List.mem_cons_self _ _)
        rw [List.find?_cons_of_neg _ (by simp [hne])]
        exact ih _ h2

/-- C2: the merged item list of the per-term search has pairwise-distinct
shipment identifiers, carries exactly the identifiers occurring in the
envelopes' items, and keeps, for each identifier, the first-encountered
record in envelope-scan order; later duplicates are dropped. -/
theorem c2_merge_dedups_first_wins (results : List Envelope) :
    ((search_single_merge results).map ShipmentRecord.shipmentXid).Nodup
    ∧ (∀ x, x ∈ (search_single_merge results).map ShipmentRecord.shipmentXid
          ↔ x ∈ (flatItems results).map ShipmentRecord.shipmentXid)
    ∧ (∀ r ∈ search_single_merge results,
        (flatItems results).find? (fun s => decide (s.shipmentXid = r.shipmentXid))
          = some r) := by
  rw [search_single_merge_eq]
  refine ⟨nodup_dedupFirst_map _ _, ?_, ?_⟩
  · intro x
    rw [mem_map_dedupFirst]
    simp
  · intro r hr
    exact dedupFirst_find _ _ _ hr

/-- Witness for C2: with envelopes `[[S1, S2], [S1-duplicate]]`, the
record kept for identifier `S1` is the first occurrence. -/
theorem c2_witness :
    (flatItems [okEnvelope ("Q1".toList) [recS1, recS2],
                okEnvelope ("Q2".toList) [recS1dup]]).find?
        (fun s => decide (s.shipmentXid = recS1.shipmentXid)) = some recS1 :=
  (c2_merge_dedups_first_wins
    [okEnvelope ("Q1".toList) [recS1, recS2],
     okEnvelope ("Q2".toList) [recS1dup]]).2.2 recS1 (by decide)

/-- A list with pairwise-distinct identifiers holds at most one record
with any fixed identifier. -/
theorem filter_xid_length_le_one (l : List ShipmentRecord) (x : Option Str)
    (h : (l.map ShipmentRecord.shipmentXid).Nodup) :
    (l.filter (fun r => decide (r.shipmentXid = x))).length ≤ 1 := by
  induction l with
  | nil => simp
  | cons a rest ih =>
    simp only [List.map_cons, List.nodup_cons] at h
    by_cases ha : a.shipmentXid = x
    · rw [List.filter_cons_of_pos (by simp [ha])]
      have hnil : rest.filter (fun r => decide (r.shipmentXid = x)) = [] := by
        rw [List.filter_eq_nil_iff]
        intro r hr
        simp only [decide_eq_true_eq]
        intro hrx
        exact h.1 (by rw [ha, ← hrx]; exact List.mem_map_of_mem _ hr)
      simp [hnil]
    · rw [List.filter_cons_of_neg (by simp [ha])]
      exact ih h.2

/-- C9: records with an absent shipment identifier are deduplicated
against one another — the merged list holds at most one such record, and
it is the first identifier-less record in scan order, even when the
records differ in every other field. -/
theorem c9_merge_none_xid_shared_key (results : List Envelope) :
    ((search_single_merge results).filter
        (fun r => decide (r.shipmentXid = none))).length ≤ 1
    ∧ ∀ r ∈ search_single_merge results, r.shipmentXid = none →
        (flatItems results).find? (fun s => decide (s.shipmentXid = none)) = some r := by
  constructor
  · exact filter_xid_length_le_one _ _
      (search_single_merge_eq results ▸ nodup_dedupFirst_map [] (flatItems results))
  · intro r hr hnone
    rw [search_single_merge_eq] at hr
    have := dedupFirst_find _ _ _ hr
    rwa [hnone] at this

/-- Witness for C9: two identifier-less records differing in their name,
in two envelopes; the first one is the record kept. -/
theorem c9_witness :
    (flatItems [okEnvelope ("Q1".toList) [recNone1],
                okEnvelope ("Q2".toList) [recNone2]]).find?
        (fun s => decide (s.shipmentXid = none)) = some recNone1 :=
  (c9_merge_none_xid_shared_key
    [okEnvelope ("Q1".toList) [recNone1],
     okEnvelope ("Q2".toList) [recNone2]]).2 recNone1 (by decide) (by decide)

/-- The success branch of `fetch_query`, as one equation. -/
theorem fetch_query_ok (query_name : Str) (status : Nat) (text : Str) (data : RespData)
    (items : List ShipmentRecord) (h1 : 200 ≤ status) (h2 : status < 300)
    (hok : jItemsOrRaise data.items >>= (fun raws => raws.mapM parse_shipment)
            = Except.ok items) :
    fetch_query query_name (HttpResult.resp status text (.ok data))
      = { query := query_name,
          count := (match data.count with
                    | JField.missing => some items.length
                    | JField.null => none
                    | JField.val n => some n),
          hasMore := (match data.hasMore with
                      | JField.missing => some false
                      | JField.null => none
                      | JField.val b => some b),
          items := items, error := none } := by
  have hcond : ¬ (status < 200 ∨ 300 ≤ status) := by omega
  simp only [fetch_query, if_neg hcond]
  rw [hok]

/-- C5: every dispatch outcome resolves to an envelope (totality of
`fetch_query` over `HttpResult`): a transport failure yields a zero-item
envelope carrying the failure text; a non-2xx response yields a zero-item
envelope whose error holds the status code and at most 200 characters of
the body; a JSON-decode failure yields a zero-item envelope carrying its
text; and a successful decode yields the normalized items, the reported
count (falling back to the item-list length when the count key is
missing), the more-results flag, and no error. -/
theorem c5_fetch_query_envelope (query_name : Str) :
    (∀ msg, (fetch_query query_name (HttpResult.exc msg)).count = some 0
        ∧ (fetch_query query_name (HttpResult.exc msg)).items = []
        ∧ (fetch_query query_name (HttpResult.exc msg)).error = some msg)
    ∧ (∀ status text json, status < 200 ∨ 300 ≤ status →
        (fetch_query query_name (HttpResult.resp status text json)).count = some 0
        ∧ (fetch_query query_name (HttpResult.resp status text json)).items = []
        ∧ (fetch_query query_name (HttpResult.resp status text json)).error
            = some (("HTTP ".toList) ++ (toString status).toList
                     ++ (": ".toList) ++ text.take 200)
        ∧ (text.take 200).length ≤ 200)
    ∧ (∀ status text data items, 200 ≤ status → status < 300 →
        jItemsOrRaise data.items >>= (fun raws => raws.mapM parse_shipment)
          = Except.ok items →
        (fetch_query query_name (HttpResult.resp status text (.ok data))).error = none
        ∧ (fetch_query query_name (HttpResult.resp status text (.ok data))).items = items
        ∧ (data.count = JField.missing →
            (fetch_query query_name (HttpResult.resp status text (.ok data))).count
              = some items.length)
        ∧ (∀ n, data.count = JField.val n →
            (fetch_query query_name (HttpResult.resp status text (.ok data))).count
              = some n)
        ∧ (data.hasMore = JField.missing →
            (fetch_query query_name (HttpResult.resp status text (.ok data))).hasMore
              = some false)
        ∧ (∀ b, data.hasMore = JField.val b →
            (fetch_query query_name (HttpResult.resp status text (.ok data))).hasMore
              = some b))
    ∧ (∀ status text msg, 200 ≤ status → status < 300 →
        (fetch_query query_name (HttpResult.resp status text (.error msg))).error
            = some msg
        ∧ (fetch_query query_name (HttpResult.resp status text (.error msg))).items
            = []) := by
  refine ⟨?_, ?_, ?_, ?_⟩
  · intro msg
    exact ⟨rfl, rfl, rfl⟩
  · intro status text json h
    have htk : (text.take 200).length = min 200 text.length := List.length_take 200 text
    refine ⟨?_, ?_, ?_, by omega⟩ <;>
      simp [fetch_query, errorEnvelope, if_pos h]
  · intro status text data items h1 h2 hok
    rw [fetch_query_ok query_name status text data items h1 h2 hok]
    refine ⟨rfl, rfl, ?_, ?_, ?_, ?_⟩
    · intro hc
      simp only [hc]
    · intro n hc
      simp only [hc]
    · intro hm
      simp only [hm]
    · intro b hm
      simp only [hm]
  · intro status text msg h1 h2
    have hcond : ¬ (status < 200 ∨ 300 ≤ status) := by omega
    exact ⟨by simp [fetch_query, if_neg hcond, errorEnvelope],
           by simp [fetch_query, if_neg hcond, errorEnvelope]⟩

/-- Witness for C5: a 404 yields the formatted error envelope; a 200 with
one parseable item yields an envelope with no error and that item. -/
theorem c5_witness :
    (fetch_query ("Q1".toList) (HttpResult.resp 404 ("NOT FOUND".toList)
        (Except.error ("x".toList)))).error
      = some (("HTTP ".toList) ++ (toString 404).toList
               ++ (": ".toList) ++ ("NOT FOUND".toList).take 200)
    ∧ (fetch_query ("Q1".toList) (HttpResult.resp 200 ("BODY".toList)
        (Except.ok respData0))).error = none
    ∧ (fetch_query ("Q1".toList) (HttpResult.resp 200 ("BODY".toList)
        (Except.ok respData0))).items = [emptyRec] :=
  ⟨((c5_fetch_query_envelope ("Q1".toList)).2.1 404 ("NOT FOUND".toList)
      (Except.error ("x".toList)) (by omega)).2.2.1,
   ((c5_fetch_query_envelope ("Q1".toList)).2.2.1 200 ("BODY".toList)
      respData0 [emptyRec] (by omega) (by omega) (by rfl)).1,
   (((c5_fetch_query_envelope ("Q1".toList)).2.2.1 200 ("BODY".toList)
      respData0 [emptyRec] (by omega) (by omega) (by rfl)).2).1⟩

/-- C6: bulk input splits on commas with trimming and empty-entry
dropping; an empty term list is rejected with the exact message, more
than 100 terms is rejected with the exact message, and otherwise the
term list is accepted — all decided before any upstream call. -/
theorem c6_bulk_validation (values : Str) :
    (bulkTerms values = [] →
      bulk_validate values = .clientError ("No search values provided.".toList))
    ∧ (bulkTerms values ≠ [] → (bulkTerms values).length ≤ 100 →
      bulk_validate values = .accepted (bulkTerms values))
    ∧ ((bulkTerms values).length > 100 →
      bulk_validate values = .clientError ("Maximum 100 values per bulk request.".toList)) := by
  refine ⟨?_, ?_, ?_⟩
  · intro h
    simp [bulk_validate, h]
  · intro h1 h2
    have he : (bulkTerms values).isEmpty = false := by
      cases hb : bulkTerms values with
      | nil => exact absurd hb h1
      | cons a rest => rfl
    have hlen : ¬ (bulkTerms values).length > 100 := by omega
    simp [bulk_validate, he, hlen]
  · intro h
    have he : (bulkTerms values).isEmpty = false := by
      cases hb : bulkTerms values with
      | nil => rw [hb] at h; simp at h
      | cons a rest => rfl
    simp [bulk_validate, he, h]

set_option maxRecDepth 8192 in
/-- Witness for C6: the empty input is rejected, exactly 100 terms are
accepted, and 101 terms are rejected. -/
theorem c6_witness :
    bulk_validate [] = .clientError ("No search values provided.".toList)
    ∧ bulk_validate hundredTerms = .accepted (bulkTerms hundredTerms)
    ∧ bulk_validate hundredOneTerms
        = .clientError ("Maximum 100 values per bulk request.".toList) :=
  ⟨(c6_bulk_validation []).1 (by decide),
   (c6_bulk_validation hundredTerms).2.1 (by decide) (by decide),
   (c6_bulk_validation hundredOneTerms).2.2 (by decide)⟩

/-- C8: each of the three trigger operations reports, for a completed
POST, a result whose status is `ok` exactly when the HTTP status is below
400 and `error` otherwise, with the numeric status, the shipment
identifier and at most the first 500 characters of the body; a transport
failure becomes a server error carrying the failure text. -/
theorem c8_trigger_outcomes (shipment_xid : Str) :
    (∀ status text, ∃ r, trigger_btf shipment_xid (PostResult.resp status text)
          = .result r
        ∧ (r.status = ("ok".toList) ↔ status < 400)
        ∧ (r.status = ("error".toList) ↔ ¬ status < 400)
        ∧ r.httpStatus = status ∧ r.shipmentXid = shipment_xid
        ∧ r.response = text.take 500 ∧ r.response.length ≤ 500)
    ∧ (∀ msg, trigger_btf shipment_xid (PostResult.exc msg) = .serverError msg)
    ∧ (∀ status text, ∃ r, trigger_usb shipment_xid (PostResult.resp status text)
          = .result r
        ∧ (r.status = ("ok".toList) ↔ status < 400)
        ∧ (r.status = ("error".toList) ↔ ¬ status < 400)
        ∧ r.httpStatus = status ∧ r.shipmentXid = shipment_xid
        ∧ r.response = text.take 500 ∧ r.response.length ≤ 500)
    ∧ (∀ msg, trigger_usb shipment_xid (PostResult.exc msg) = .serverError msg)
    ∧ (∀ status text, ∃ r, send_to_po shipment_xid (PostResult.resp status text)
          = .result r
        ∧ (r.status = ("ok".toList) ↔ status < 400)
        ∧ (r.status = ("error".toList) ↔ ¬ status < 400)
        ∧ r.httpStatus = status ∧ r.shipmentXid = shipment_xid
        ∧ r.response = text.take 500 ∧ r.response.length ≤ 500)
    ∧ (∀ msg, send_to_po shipment_xid (PostResult.exc msg) = .serverError msg) := by
  refine ⟨?_, fun msg => rfl, ?_, fun msg => rfl, ?_, fun msg => rfl⟩ <;>
  · intro status text
    refine ⟨_, rfl, ?_, ?_, rfl, rfl, rfl, ?_⟩
    · by_cases h : status < 400
      · simp [h]
      · simp only [if_neg h, h, iff_false]
        decide
    · by_cases h : status < 400
      · simp only [if_pos h, h, not_true, iff_false]
        decide
      · simp [h]
    · show (text.take 500).length ≤ 500
      have htk : (text.take 500).length = min 500 text.length := List.length_take 500 text
      omega

end FPInvestigator
